import Mathlib

/-!
Shallow embedding of the Goblin3D wireframe library (src/src/goblin3d.cpp,
src/src/goblin3d.h) for checking its natural-language specification.

Modelling conventions:
* C `float` values and arithmetic are modelled as exact rationals (`ℚ`);
  `round` (half away from zero) is modelled exactly by `roundAway`.
  The trigonometric prelude of `goblin3d_precalculate` (lines 138-148,
  degree-to-radian conversion and `cos`/`sin`) is abstracted by passing the
  six cosine/sine values as explicit rational parameters; everything from
  line 150 on is embedded literally.
* Heap allocation is modelled by an oracle (`Heap`): a list of booleans giving
  the outcomes of the next allocations, in order; once the list is exhausted
  every later allocation succeeds.  `malloc`/`realloc` calls consume one
  oracle entry each, in program order.
* A `float*`/`uint32_t*` slot inside one of the object's pointer arrays is a
  `Slot`: `null` (the null pointer was stored), `uninit` (the slot itself was
  never assigned, so it holds an indeterminate pointer), `fresh` (a valid
  allocation whose pointed-to contents were never written), or `val a`
  (a valid allocation holding `a`).  A pointer array field of the C struct is
  `Option (List (Slot _))`: `none` is the null pointer, `some l` an allocated
  block of `l.length` slots.
* Undefined behaviour (dereferencing a null or indeterminate pointer, reading
  indeterminate values, out-of-bounds access) makes the embedded operation
  return `none`; operations that complete return `some` of their outputs.
* `uint32_t` counters are naturals reduced modulo `2^32` exactly where the C
  code can wrap them (`obj->point_count++`, `obj->edge_count++`, and the
  `- 1` in the face parser).  The `int` loop counter of
  `goblin3d_edge_exists` is modelled as a plain natural; its overflow would
  need more than `2^31` edges and is not modelled.
-/

namespace Goblin3d

/-- Allocation oracle: outcomes of the upcoming allocations; an exhausted
oracle means every further allocation succeeds. -/
abbrev Heap : Type := List Bool

/-- Consume one allocation outcome from the oracle. -/
def alloc : Heap → Bool × Heap
  | [] => (true, [])
  | b :: h => (b, h)

/-- One pointer slot inside a malloc'ed pointer array. -/
inductive Slot (α : Type) where
  | null : Slot α
  | uninit : Slot α
  | fresh : Slot α
  | val (a : α) : Slot α
deriving DecidableEq

abbrev Vec3 : Type := ℚ × ℚ × ℚ

abbrev Vec2 : Type := ℚ × ℚ

/-- `2^32`, the modulus of the `uint32_t` counters. -/
abbrev U32 : ℕ := 4294967296

/-- `n - 1` computed on a `uint32_t` (wraps at zero). -/
def dec32 (n : ℕ) : ℕ := (n + (U32 - 1)) % U32

/-- The `goblin3d_obj_t` struct (goblin3d.h lines 72-88). -/
structure goblin3d_obj_t where
  points : Option (List (Slot Vec2))
  edges : Option (List (Slot (ℕ × ℕ)))
  orig_points : Option (List (Slot Vec3))
  rotated_points : Option (List (Slot Vec3))
  x_offset : ℚ
  y_offset : ℚ
  z_offset : ℚ
  x_angle_deg : ℚ
  y_angle_deg : ℚ
  z_angle_deg : ℚ
  point_count : ℕ
  edge_count : ℕ
  scale_size : ℚ
deriving DecidableEq

instance : DecidableEq Vec3 := fun a b => inferInstanceAs (Decidable (a = b))

instance : DecidableEq Vec2 := fun a b => inferInstanceAs (Decidable (a = b))

instance : DecidableEq (Option (List (Slot Vec3))) :=
  fun a b => inferInstanceAs (Decidable (a = b))

instance : DecidableEq (Option (List (Slot Vec2))) :=
  fun a b => inferInstanceAs (Decidable (a = b))

instance : DecidableEq (Option (List (Slot (ℕ × ℕ)))) :=
  fun a b => inferInstanceAs (Decidable (a = b))

/-- `realloc(arr, n * elemsize)` on a pointer array: a null pointer acts like
`malloc`; otherwise the surviving prefix keeps its slots and any newly added
slots hold indeterminate pointers. -/
def reallocArr {α : Type} (arr : Option (List (Slot α))) (n : ℕ) : List (Slot α) :=
  match arr with
  | none => List.replicate n Slot.uninit
  | some l => l.take n ++ List.replicate (n - l.length) Slot.uninit

/-- Store a pointer into slot `i` of an array; `none` on an out-of-bounds
write (undefined behaviour). -/
def setSlot {α : Type} (l : List (Slot α)) (i : ℕ) (s : Slot α) : Option (List (Slot α)) :=
  if i < l.length then some (l.set i s) else none

/-- Write through the pointer held in slot `i`: undefined behaviour if the
slot is out of bounds, holds null, or holds an indeterminate pointer. -/
def writeSlot {α : Type} (l : List (Slot α)) (i : ℕ) (a : α) : Option (List (Slot α)) :=
  match l.get? i with
  | some Slot.fresh => some (l.set i (Slot.val a))
  | some (Slot.val _) => some (l.set i (Slot.val a))
  | _ => none

/-- Read through the pointer held in slot `i`: defined only if the slot holds
a valid allocation with written contents. -/
def readSlot {α : Type} (l : List (Slot α)) (i : ℕ) : Option α :=
  match l.get? i with
  | some (Slot.val a) => some a
  | _ => none

/-- A slot that `goblin3d_free` may inspect: `if(ptr) free(ptr)` is fine on a
null or valid pointer but reads an indeterminate pointer on an unassigned
slot. -/
def slotFreeable {α : Type} : Slot α → Bool
  | Slot.uninit => false
  | _ => true

/-- A slot through which the code may store: it must hold a valid
allocation. -/
def slotWritable {α : Type} : Slot α → Bool
  | Slot.fresh => true
  | Slot.val _ => true
  | _ => false

/-- Extract the contents of a slot, if any. -/
def slotVal {α : Type} : Slot α → Option α
  | Slot.val a => some a
  | _ => none

/-- Whether the freeing loop over the first `n` slots of an array is free of
undefined behaviour (goblin3d.cpp lines 109-122): with a null array the loop
body must not run, every visited slot must have an assigned pointer, and the
loop must stay inside the allocation. -/
def walkOK {α : Type} (arr : Option (List (Slot α))) (n : ℕ) : Bool :=
  match arr with
  | none => n == 0
  | some l => decide (n ≤ l.length) && (l.take n).all slotFreeable

/-- `goblin3d_free` (lines 108-135): walks the per-point and per-edge rows,
freeing non-null ones, then frees the four arrays.  Returns `none` when the
walk itself is undefined behaviour (e.g. a null array with a nonzero
count). -/
def goblin3d_free (obj : goblin3d_obj_t) : Option Unit :=
  if walkOK obj.points obj.point_count && walkOK obj.orig_points obj.point_count &&
      walkOK obj.rotated_points obj.point_count && walkOK obj.edges obj.edge_count then
    some ()
  else
    none

/-- `goblin3d_init_empty` (lines 98-106). -/
def goblin3d_init_empty (obj : goblin3d_obj_t) : goblin3d_obj_t :=
  { obj with
      point_count := 0
      edge_count := 0
      points := none
      orig_points := none
      rotated_points := none
      edges := none }

/-- The per-point row-allocation loop of `goblin3d_init` (lines 59-77):
allocates the `points`, `orig_points` and `rotated_points` row of each point
in turn; on a failed allocation the affected slot is set to null and the loop
reports failure, leaving later slots unassigned.  `none` when the loop would
write past one of the arrays. -/
def initPointRows (h : Heap) :
    ℕ → List (Slot Vec2) → List (Slot Vec3) → List (Slot Vec3) →
    Option (Heap × List (Slot Vec2) × List (Slot Vec3) × List (Slot Vec3) × Bool)
  | 0, ps, os, rs => some (h, ps, os, rs, true)
  | n + 1, _p :: ps, o :: os, r :: rs =>
    let (a1, h1) := alloc h
    if a1 = false then some (h1, Slot.null :: ps, o :: os, r :: rs, false)
    else
      let (a2, h2) := alloc h1
      if a2 = false then some (h2, Slot.fresh :: ps, Slot.null :: os, r :: rs, false)
      else
        let (a3, h3) := alloc h2
        if a3 = false then some (h3, Slot.fresh :: ps, Slot.fresh :: os, Slot.null :: rs, false)
        else
          match initPointRows h3 n ps os rs with
          | some (h4, ps4, os4, rs4, ok) =>
            some (h4, Slot.fresh :: ps4, Slot.fresh :: os4, Slot.fresh :: rs4, ok)
          | none => none
  | _ + 1, _, _, _ => none

/-- The per-edge row-allocation loop of `goblin3d_init` (lines 79-85). -/
def initEdgeRows (h : Heap) :
    ℕ → List (Slot (ℕ × ℕ)) → Option (Heap × List (Slot (ℕ × ℕ)) × Bool)
  | 0, es => some (h, es, true)
  | n + 1, _e :: es =>
    let (a, h1) := alloc h
    if a = false then some (h1, Slot.null :: es, false)
    else
      match initEdgeRows h1 n es with
      | some (h2, es2, ok) => some (h2, Slot.fresh :: es2, ok)
      | none => none
  | _ + 1, [] => none

/-- On an allocation failure `goblin3d_init` calls `goblin3d_free` on the
partially built object and returns `false`; the call is undefined behaviour
whenever the free walk is. -/
def initFail (h : Heap) (obj : goblin3d_obj_t) : Option (Heap × goblin3d_obj_t × Bool) :=
  match goblin3d_free obj with
  | some _ => some (h, obj, false)
  | none => none

/-- `goblin3d_init` (lines 28-96): stores the requested counts, allocates the
four pointer arrays and then every row; any failure triggers a cleanup call
to `goblin3d_free` on the partial object.  Note that the counts are stored
before anything is allocated and that freshly allocated arrays hold
indeterminate pointers. -/
def goblin3d_init (h : Heap) (obj : goblin3d_obj_t) (point_count edge_count : ℕ) :
    Option (Heap × goblin3d_obj_t × Bool) :=
  let obj1 := { obj with point_count := point_count, edge_count := edge_count }
  let (a1, h1) := alloc h
  let obj2 := { obj1 with
    points := if a1 then some (List.replicate point_count Slot.uninit) else none }
  if a1 = false then initFail h1 obj2
  else
    let (a2, h2) := alloc h1
    let obj3 := { obj2 with
      edges := if a2 then some (List.replicate edge_count Slot.uninit) else none }
    if a2 = false then initFail h2 obj3
    else
      let (a3, h3) := alloc h2
      let obj4 := { obj3 with
        orig_points := if a3 then some (List.replicate point_count Slot.uninit) else none }
      if a3 = false then initFail h3 obj4
      else
        let (a4, h4) := alloc h3
        let obj5 := { obj4 with
          rotated_points := if a4 then some (List.replicate point_count Slot.uninit) else none }
        if a4 = false then initFail h4 obj5
        else
          match initPointRows h4 point_count (List.replicate point_count Slot.uninit)
              (List.replicate point_count Slot.uninit)
              (List.replicate point_count Slot.uninit) with
          | none => none
          | some (h5, ps, os, rs, ok1) =>
            let obj6 := { obj5 with
              points := some ps, orig_points := some os, rotated_points := some rs }
            if ok1 = false then initFail h5 obj6
            else
              match initEdgeRows h5 edge_count (List.replicate edge_count Slot.uninit) with
              | none => none
              | some (h6, es, ok2) =>
                let obj7 := { obj6 with edges := some es }
                if ok2 = false then initFail h6 obj7
                else
                  some (h6, { obj7 with
                    x_angle_deg := 0, y_angle_deg := 0, z_angle_deg := 0,
                    x_offset := 0, y_offset := 0, z_offset := 0 }, true)

/-- `goblin3d_add_point` (lines 189-221): increments the point count first,
then reallocates the three per-point arrays (a failed `realloc` nulls the
field and returns `false`), then allocates the three new rows.  The null
checks after the row `malloc`s (lines 205, 209, 213) re-test the array
pointers - which are non-null at that point - so a failed row allocation goes
unnoticed; storing the coordinates through a null `orig_points` row is
undefined behaviour. -/
def goblin3d_add_point (h : Heap) (obj : goblin3d_obj_t) (x y z : ℚ) :
    Option (Heap × goblin3d_obj_t × Bool) :=
  let pc := (obj.point_count + 1) % U32
  let obj1 := { obj with point_count := pc }
  let (a1, h1) := alloc h
  if a1 = false then some (h1, { obj1 with orig_points := none }, false)
  else
    let lo := reallocArr obj1.orig_points pc
    let obj2 := { obj1 with orig_points := some lo }
    let (a2, h2) := alloc h1
    if a2 = false then some (h2, { obj2 with rotated_points := none }, false)
    else
      let lr := reallocArr obj2.rotated_points pc
      let obj3 := { obj2 with rotated_points := some lr }
      let (a3, h3) := alloc h2
      if a3 = false then some (h3, { obj3 with points := none }, false)
      else
        let lp := reallocArr obj3.points pc
        let obj4 := { obj3 with points := some lp }
        let idx := dec32 pc
        let (b1, h4) := alloc h3
        match setSlot lo idx (if b1 then Slot.fresh else Slot.null) with
        | none => none
        | some lo1 =>
          let (b2, h5) := alloc h4
          match setSlot lr idx (if b2 then Slot.fresh else Slot.null) with
          | none => none
          | some lr1 =>
            let (b3, h6) := alloc h5
            match setSlot lp idx (if b3 then Slot.fresh else Slot.null) with
            | none => none
            | some lp1 =>
              match writeSlot lo1 idx (x, y, z) with
              | none => none
              | some lo2 =>
                some (h6, { obj4 with
                  orig_points := some lo2, rotated_points := some lr1,
                  points := some lp1 }, true)

/-- The scan of `goblin3d_edge_exists` (lines 224-230) over the first `n`
rows of the edge array: reading an unassigned or null row pointer, or running
past the allocation, is undefined behaviour. -/
def edgeSeek (v1 v2 : ℕ) : ℕ → List (Slot (ℕ × ℕ)) → Option Bool
  | 0, _ => some false
  | _ + 1, [] => none
  | n + 1, s :: rest =>
    match s with
    | Slot.val (a, b) =>
      if (a == v1 && b == v2) || (a == v2 && b == v1) then some true
      else edgeSeek v1 v2 n rest
    | _ => none

/-- `goblin3d_edge_exists` (lines 223-233). -/
def goblin3d_edge_exists (obj : goblin3d_obj_t) (v1 v2 : ℕ) : Option Bool :=
  match obj.edges with
  | none => if obj.edge_count = 0 then some false else none
  | some l => edgeSeek v1 v2 obj.edge_count l

/-- `goblin3d_add_edge` (lines 235-249): returns `true` at once if the edge
already exists; otherwise increments the edge count, reallocates the edge
array (a failed `realloc` nulls the field and returns `false`), allocates the
new row and stores `(v1, v2)` through it.  The row `malloc` at line 244 is
never checked, so its failure makes the stores at lines 245-246 write through
a null pointer. -/
def goblin3d_add_edge (h : Heap) (obj : goblin3d_obj_t) (v1 v2 : ℕ) :
    Option (Heap × goblin3d_obj_t × Bool) :=
  match goblin3d_edge_exists obj v1 v2 with
  | none => none
  | some true => some (h, obj, true)
  | some false =>
    let ec := (obj.edge_count + 1) % U32
    let obj1 := { obj with edge_count := ec }
    let (a, h1) := alloc h
    if a = false then some (h1, { obj1 with edges := none }, false)
    else
      let le := reallocArr obj1.edges ec
      let idx := dec32 ec
      let (b, h2) := alloc h1
      match setSlot le idx (if b then Slot.fresh else Slot.null) with
      | none => none
      | some le1 =>
        match writeSlot le1 idx (v1, v2) with
        | none => none
        | some le2 => some (h2, { obj1 with edges := some le2 }, true)

/-- Truncation toward zero of a rational, as the C conversion from `float`
to an integer type truncates. -/
def ratTrunc (q : ℚ) : ℤ := if q < 0 then -(Int.floor (-q)) else Int.floor q

/-- Conversion of a `float` to `uint16_t` as done implicitly when `render`
passes the projected coordinates to the `goblin3d_obj_draw_fn` callback
(goblin3d.h line 101): truncate toward zero; undefined behaviour when the
truncated value is outside `[0, 65536)` (C 6.3.1.4). -/
def toU16 (q : ℚ) : Option ℕ :=
  let t := ratTrunc q
  if 0 ≤ t ∧ t < 65536 then some t.toNat else none

/-- Read the projected row of point `i` (both coordinates), `none` on any
undefined access. -/
def readPt (pts : Option (List (Slot Vec2))) (i : ℕ) : Option Vec2 :=
  match pts with
  | none => none
  | some l => readSlot l i

/-- The edge loop of `goblin3d_render` (lines 178-186) over the first `n`
edge rows, collecting the arguments of the successive draw-callback
invocations. -/
def renderSeek (obj : goblin3d_obj_t) : ℕ → List (Slot (ℕ × ℕ)) → Option (List (ℕ × ℕ × ℕ × ℕ))
  | 0, _ => some []
  | _ + 1, [] => none
  | n + 1, s :: rest =>
    match s with
    | Slot.val (st, en) =>
      match readPt obj.points st, readPt obj.points en with
      | some (xs, ys), some (xe, ye) =>
        match toU16 xs, toU16 ys, toU16 xe, toU16 ye with
        | some x1, some y1, some x2, some y2 =>
          match renderSeek obj n rest with
          | some calls => some ((x1, y1, x2, y2) :: calls)
          | none => none
        | _, _, _, _ => none
      | _, _ => none
    | _ => none

/-- `goblin3d_render` (lines 177-187): returns the list of draw-callback
invocations, in order, one per stored edge. -/
def goblin3d_render (obj : goblin3d_obj_t) : Option (List (ℕ × ℕ × ℕ × ℕ)) :=
  match obj.edges with
  | none => if obj.edge_count = 0 then some [] else none
  | some l => renderSeek obj obj.edge_count l

/-- C `round`: round half away from zero, exactly. -/
def roundAway (q : ℚ) : ℤ :=
  if q < 0 then -(Int.floor (-q + 1/2)) else Int.floor (q + 1/2)

/-- The per-point loop of `goblin3d_precalculate` (lines 150-174), embedded
literally: rotate the original point about X, then Y, then Z using the given
cosine/sine values, store the rotated point with the z offset added to its Z
coordinate, then clamp the local (pre-offset) `z` to at most `-3` and store
the projected coordinates.  Lines 172-173 read back the just-stored rotated
X and Y, which equal the local `x` and `y`. -/
def precalcSeek (zOff xOff yOff scale cosX sinX cosY sinY cosZ sinZ : ℚ) :
    ℕ → List (Slot Vec3) → List (Slot Vec3) → List (Slot Vec2) →
    Option (List (Slot Vec3) × List (Slot Vec2))
  | 0, _, rs, ps => some (rs, ps)
  | n + 1, o :: os, r :: rs, p :: ps =>
    match o with
    | Slot.val (x0, y0, z0) =>
      let y1 := y0 * cosX - z0 * sinX
      let z1 := y0 * sinX + z0 * cosX
      let x2 := x0 * cosY + z1 * sinY
      let z2 := -x0 * sinY + z1 * cosY
      let x3 := x2 * cosZ - y1 * sinZ
      let y3 := x2 * sinZ + y1 * cosZ
      if slotWritable r && slotWritable p then
        let zc := if z2 < -3 then z2 else -3
        let px := (roundAway (x3 / zc * scale) : ℚ) + xOff
        let py := (roundAway (y3 / zc * scale) : ℚ) + yOff
        match precalcSeek zOff xOff yOff scale cosX sinX cosY sinY cosZ sinZ n os rs ps with
        | some (rs2, ps2) =>
          some (Slot.val (x3, y3, z2 + zOff) :: rs2, Slot.val (px, py) :: ps2)
        | none => none
      else none
    | _ => none
  | _ + 1, _, _, _ => none

/-- `goblin3d_precalculate` (lines 137-175), with the cosine/sine values of
the three (radian) angles passed in as exact rationals in place of the float
trigonometry of lines 138-148. -/
def goblin3d_precalculate (obj : goblin3d_obj_t)
    (cosX sinX cosY sinY cosZ sinZ : ℚ) : Option goblin3d_obj_t :=
  match obj.orig_points, obj.rotated_points, obj.points with
  | some os, some rs, some ps =>
    match precalcSeek obj.z_offset obj.x_offset obj.y_offset obj.scale_size
        cosX sinX cosY sinY cosZ sinZ obj.point_count os rs ps with
    | some (rs2, ps2) => some { obj with rotated_points := some rs2, points := some ps2 }
    | none => none
  | _, _, _ => if obj.point_count = 0 then some obj else none

/-- Skip the blanks and tabs a `sscanf` conversion skips before its field. -/
def skipWS : List Char → List Char
  | c :: cs => if c = ' ' ∨ c = '\t' then skipWS cs else c :: cs
  | [] => []

/-- Maximal munch of a decimal digit string: accumulated value, number of
digits consumed, rest of the input. -/
def munchDigits (acc count : ℕ) : List Char → ℕ × ℕ × List Char
  | c :: cs =>
    if '0' ≤ c ∧ c ≤ '9' then munchDigits (acc * 10 + (c.toNat - 48)) (count + 1) cs
    else (acc, count, c :: cs)
  | [] => (acc, count, [])

/-- One `%f` conversion of `sscanf`: optional sign, digits with an optional
decimal point; at least one digit is required.  (The exponent, hex, inf and
nan forms `%f` also accepts do not occur in any input considered here and
are not modelled.) -/
def scanQ (s : List Char) : Option (ℚ × List Char) :=
  let s1 := skipWS s
  let signed : Bool × List Char :=
    match s1 with
    | '-' :: cs => (true, cs)
    | '+' :: cs => (false, cs)
    | _ => (false, s1)
  let (ip, c1, s2) := munchDigits 0 0 signed.2
  let frac : ℕ × ℕ × List Char :=
    match s2 with
    | '.' :: cs => munchDigits 0 0 cs
    | _ => (0, 0, s2)
  if c1 + frac.2.1 = 0 then none
  else
    let v : ℚ := (ip : ℚ) + (frac.1 : ℚ) / ((10 : ℚ) ^ frac.2.1)
    some (if signed.1 then -v else v, frac.2.2)

/-- The `sscanf(line + 2, "%f %f %f", &x, &y, &z)` of line 265.  `none` means
fewer than three fields converted; the code ignores the `sscanf` return value
and passes the then-uninitialized locals to `goblin3d_add_point`, which is
undefined behaviour. -/
def scanF3 (s : List Char) : Option (ℚ × ℚ × ℚ) :=
  match scanQ s with
  | none => none
  | some (x, s1) =>
    match scanQ s1 with
    | none => none
    | some (y, s2) =>
      match scanQ s2 with
      | none => none
      | some (z, _) => some (x, y, z)

/-- One `%u` conversion: digits only, value reduced modulo `2^32`. -/
def scanU (s : List Char) : Option (ℕ × List Char) :=
  let s1 := skipWS s
  let (v, c, s2) := munchDigits 0 0 s1
  if c = 0 then none else some (v % U32, s2)

/-- The `sscanf(line + 2, "%u %u %u %u", ...)` of lines 273-280: the list of
successfully converted fields, in order (length 0 to 4 = the returned
count). -/
def scanU4 (s : List Char) : List ℕ :=
  match scanU s with
  | none => []
  | some (a, s1) =>
    match scanU s1 with
    | none => [a]
    | some (b, s2) =>
      match scanU s2 with
      | none => [a, b]
      | some (c, s3) =>
        match scanU s3 with
        | none => [a, b, c]
        | some (d, _) => [a, b, c, d]

/-- `String::startsWith` on the accumulated line. -/
def begins : List Char → List Char → Bool
  | [], _ => true
  | _ :: _, [] => false
  | p :: ps, c :: cs => p == c && begins ps cs

/-- The chain of `goblin3d_add_edge` calls made for one face line (lines
283-285 and 288-291): the importer ignores each call's boolean result, so an
allocation failure neither stops the chain nor the parse. -/
def addEdges (h : Heap) (obj : goblin3d_obj_t) :
    List (ℕ × ℕ) → Option (Heap × goblin3d_obj_t × Bool)
  | [] => some (h, obj, true)
  | (a, b) :: rest =>
    match goblin3d_add_edge h obj a b with
    | none => none
    | some (h1, obj1, _ok) => addEdges h1 obj1 rest

/-- Processing of one complete line by `goblin3d_parse_obj_file` (lines
262-298).  The returned boolean is `false` exactly when the parse must abort
with failure (a failed `goblin3d_add_point`, lines 266-269).  Lines beginning
with the recognized marker characters, unrecognized lines and empty lines are
all no-ops. -/
def processLine (h : Heap) (obj : goblin3d_obj_t) (line : List Char) :
    Option (Heap × goblin3d_obj_t × Bool) :=
  if begins ['v', ' '] line then
    match scanF3 (line.drop 2) with
    | none => none
    | some (x, y, z) => goblin3d_add_point h obj x y z
  else if begins ['f', ' '] line then
    match scanU4 (line.drop 2) with
    | [a, b, c] =>
      addEdges h obj [(dec32 a, dec32 b), (dec32 b, dec32 c), (dec32 c, dec32 a)]
    | [a, b, c, d] =>
      addEdges h obj
        [(dec32 a, dec32 b), (dec32 b, dec32 c), (dec32 c, dec32 d), (dec32 d, dec32 a)]
    | _ => some (h, obj, true)
  else some (h, obj, true)

/-- The character loop of `goblin3d_parse_obj_file` (lines 257-302): bytes
are accumulated into `line` until a `\n` or `\r`, which triggers
`processLine`; on end of input the file is closed and the parse reports
success (a trailing unterminated line is dropped). -/
def parseChars (h : Heap) (obj : goblin3d_obj_t) (line : List Char) :
    List Char → Option (Heap × goblin3d_obj_t × Bool)
  | [] => some (h, obj, true)
  | c :: cs =>
    if c = '\n' ∨ c = '\r' then
      match processLine h obj line with
      | none => none
      | some (h1, obj1, true) => parseChars h1 obj1 [] cs
      | some (h1, obj1, false) => some (h1, obj1, false)
    else parseChars h obj (line ++ [c]) cs

/-- `goblin3d_parse_obj_file` (lines 251-306).  The host file is modelled as
`Option (List Char)`: `none` is an open failure (return `false`, object left
untouched); `some cs` is the byte sequence of the file.  Note the importer
never calls `goblin3d_free`. -/
def goblin3d_parse_obj_file (contents : Option (List Char)) (obj : goblin3d_obj_t)
    (h : Heap) : Option (Heap × goblin3d_obj_t × Bool) :=
  match contents with
  | none => some (h, obj, false)
  | some cs => parseChars h (goblin3d_init_empty obj) [] cs

/-- Meshes reachable through the builder interface: start from
`goblin3d_init_empty` and apply any sequence of completed (non-UB)
`goblin3d_add_point` / `goblin3d_add_edge` calls, whatever their allocation
outcomes. -/
inductive Built : goblin3d_obj_t → Prop where
  | empty (obj : goblin3d_obj_t) : Built (goblin3d_init_empty obj)
  | point (h h1 : Heap) (obj obj1 : goblin3d_obj_t) (x y z : ℚ) (r : Bool) :
      Built obj → goblin3d_add_point h obj x y z = some (h1, obj1, r) → Built obj1
  | edge (h h1 : Heap) (obj obj1 : goblin3d_obj_t) (v1 v2 : ℕ) (r : Bool) :
      Built obj → goblin3d_add_edge h obj v1 v2 = some (h1, obj1, r) → Built obj1

/-- The vertex pairs actually stored in the edge array. -/
def storedEdges (obj : goblin3d_obj_t) : List (ℕ × ℕ) :=
  match obj.edges with
  | none => []
  | some l => l.filterMap slotVal

/-- Two index pairs denote the same unordered edge. -/
def sameUnord (e f : ℕ × ℕ) : Prop := f = e ∨ f = (e.2, e.1)

/-- The original-vertex array holds exactly the list `O` (empty meshes may
hold either a null array or an empty allocation). -/
def origIs (obj : goblin3d_obj_t) (O : List Vec3) : Prop :=
  obj.point_count = O.length ∧
    (obj.orig_points = some (O.map Slot.val) ∨ (obj.orig_points = none ∧ O = []))

/-- The edge array holds exactly the written rows `E` (empty meshes may hold
either a null array or an empty allocation). -/
def edgesAre (obj : goblin3d_obj_t) (E : List (ℕ × ℕ)) : Prop :=
  obj.edge_count = E.length ∧
    (obj.edges = some (E.map Slot.val) ∨ (obj.edges = none ∧ E = []))

/-- Invariant maintained by the builder: the edge array is either the null
pointer (as after a failed edge-array `realloc`) or holds exactly
`edge_count` written rows, fewer than `2^32`, no two of which denote the
same unordered pair. -/
def EdgesInv (obj : goblin3d_obj_t) : Prop :=
  obj.edges = none ∨
    ∃ E : List (ℕ × ℕ), obj.edges = some (E.map Slot.val) ∧ obj.edge_count = E.length ∧
      E.length < U32 ∧ E.Pairwise fun e f => ¬ sameUnord e f

/-- A rational that is an exact `uint16_t` value. -/
def isU16 (q : ℚ) : Prop := ∃ n : ℕ, n < 65536 ∧ q = (n : ℚ)

/-- Truncation of a projected coordinate to the natural passed to the draw
callback. -/
def qToN (q : ℚ) : ℕ := (ratTrunc q).toNat

/-- Read the stored rotated row of point `i`. -/
def rotAt (obj : goblin3d_obj_t) (i : ℕ) : Option Vec3 :=
  match obj.rotated_points with
  | none => none
  | some l => readSlot l i

/-- Read the stored projected row of point `i`. -/
def projAt (obj : goblin3d_obj_t) (i : ℕ) : Option Vec2 :=
  match obj.points with
  | none => none
  | some l => readSlot l i

/-- A zeroed `goblin3d_obj_t`, as produced by `goblin3d_init_empty` on a
zeroed struct. -/
def obj0 : goblin3d_obj_t :=
  { points := none, edges := none, orig_points := none, rotated_points := none,
    x_offset := 0, y_offset := 0, z_offset := 0,
    x_angle_deg := 0, y_angle_deg := 0, z_angle_deg := 0,
    point_count := 0, edge_count := 0, scale_size := 0 }

/-- The input text of the importer test from the specification. -/
def c7input : List Char := "v 0 0 0\nv 1 0 0\nv 0 1 0\nf 1 2 3\n".toList

/-- An allocation oracle whose 23rd allocation fails: the three `v` lines
consume 6 allocations each, the first two `f`-line edges consume 2 each, and
the 23rd is the edge-array `realloc` for the face's third edge. -/
def heapC2 : Heap := List.replicate 22 true ++ [false]

/-- A one-vertex mesh with original point `(1, 0, 0)`, z offset `-10` and
scale `100`, ready for a transform pass. -/
def objX : goblin3d_obj_t :=
  { obj0 with
      point_count := 1
      z_offset := -10
      scale_size := 100
      orig_points := some [Slot.val (1, 0, 0)]
      rotated_points := some [Slot.fresh]
      points := some [Slot.fresh] }

/-- `objX` after its transform pass: only the rotated and projected
coordinates differ. -/
def objX2 : goblin3d_obj_t :=
  { objX with
      rotated_points := some [Slot.val (1, 0, -10)]
      points := some [Slot.val (-33, 0)] }

/-- A two-vertex, one-edge mesh whose first projected X coordinate is the
non-integral value `1/2`. -/
def objY : goblin3d_obj_t :=
  { obj0 with
      point_count := 2
      edge_count := 1
      edges := some [Slot.val (0, 1)]
      points := some [Slot.val ((1 : ℚ)/2, 0), Slot.val (0, 0)] }

/-- A mesh already holding one vertex, at `(7, 7, 7)`. -/
def objA2 : goblin3d_obj_t :=
  { obj0 with
      point_count := 1
      orig_points := some [Slot.val (7, 7, 7)]
      rotated_points := some [Slot.fresh]
      points := some [Slot.fresh] }

/-- The specification's projection test mesh: one vertex at `(0, 0, -5)`,
offsets `(160, 120, 0)`, scale `100`. -/
def objW : goblin3d_obj_t :=
  { obj0 with
      point_count := 1
      x_offset := 160
      y_offset := 120
      scale_size := 100
      orig_points := some [Slot.val (0, 0, -5)]
      rotated_points := some [Slot.fresh]
      points := some [Slot.fresh] }

/-- A two-vertex, one-edge mesh with integral in-range projected
coordinates. -/
def objR : goblin3d_obj_t :=
  { obj0 with
      point_count := 2
      edge_count := 1
      edges := some [Slot.val (0, 1)]
      points := some [Slot.val ((160 : ℚ), 120), Slot.val (10, 20)] }

/-- An empty mesh whose edge array is a zero-length allocation. -/
def objE : goblin3d_obj_t := { obj0 with edges := some [] }

/-- The mesh produced by a successful `goblin3d_add_edge(objE, 0, 1)`. -/
def objE1 : goblin3d_obj_t :=
  { obj0 with edge_count := 1, edges := some [Slot.val (0, 1)] }

/-- The mesh produced by a successful `goblin3d_add_point(obj0, 1, 2, 3)`. -/
def objP1 : goblin3d_obj_t :=
  { obj0 with
      point_count := 1
      orig_points := some [Slot.val (1, 2, 3)]
      rotated_points := some [Slot.fresh]
      points := some [Slot.fresh] }

/-! ## Theorems -/

/-- C7: running the importer on `"v 0 0 0\nv 1 0 0\nv 0 1 0\nf 1 2 3\n"`
(with every allocation succeeding) returns success and a mesh with exactly 3
vertices, original positions `(0,0,0)`, `(1,0,0)`, `(0,1,0)` in file order,
and exactly 3 edges `(0,1)`, `(1,2)`, `(2,0)` stored in that order - visibly
without duplicates. -/
theorem parse_obj_file_triangle :
    (goblin3d_parse_obj_file (some c7input) obj0 []).map
      (fun r => (r.2.2, r.2.1.point_count, r.2.1.edge_count, r.2.1.edges, r.2.1.orig_points)) =
    some (true, 3, 3,
      some [Slot.val (0, 1), Slot.val (1, 2), Slot.val (2, 0)],
      some [Slot.val ((0 : ℚ), 0, 0), Slot.val (1, 0, 0), Slot.val (0, 1, 0)]) := by
  with_unfolding_all decide

/-- C2 (code bug): on the same input, with an allocation oracle whose 23rd
allocation (the edge-array `realloc` for the face's third edge) fails,
`goblin3d_parse_obj_file` nevertheless returns success: the importer ignores
the boolean result of every `goblin3d_add_edge` call, so the parse is not
aborted, the partially built mesh is not released, and the caller receives
`true` together with a corrupt mesh whose `edge_count` is 3 while its edge
array is the null pointer.  The specification instead requires the parse to
stop, release the mesh and return failure on any append allocation
failure. -/
theorem parse_obj_file_ignores_edge_failure :
    (goblin3d_parse_obj_file (some c7input) obj0 heapC2).map
      (fun r => (r.2.2, r.2.1.edge_count, r.2.1.edges)) = some (true, 3, none) := by
  with_unfolding_all decide

/-- C3 (code bug): `goblin3d_add_point` increments `point_count` before any
allocation, so when the first `realloc` fails it returns `false` with the
count already raised from 0 to 1 (first conjunct) and, on a mesh already
holding the vertex `(7,7,7)`, from 1 to 2 with the original-vertex array
replaced by the null pointer, losing the previously stored vertex (second
conjunct).  The specification instead requires a failed append to leave the
count and prior contents unchanged. -/
theorem add_point_failure_corrupts_count :
    ((goblin3d_add_point [false] obj0 1 2 3).map
        (fun r => (r.2.2, r.2.1.point_count, r.2.1.orig_points)) = some (false, 1, none)) ∧
    ((goblin3d_add_point [false] objA2 1 2 3).map
        (fun r => (r.2.2, r.2.1.point_count, r.2.1.orig_points)) = some (false, 2, none)) := by
  constructor
  · with_unfolding_all decide
  · with_unfolding_all decide

/-- C9 (code bug): `goblin3d_init` stores the requested counts before
allocating anything, and its failure path calls `goblin3d_free`, whose
cleanup loops run `point_count` (resp. `edge_count`) times.  When the very
first `malloc` fails on `goblin3d_init(obj, 1, 1)`, the cleanup therefore
reads `obj->points[0]` through a null `points` pointer - undefined behaviour
instead of the specified leak-free failure return (first conjunct).
`goblin3d_free` on a partially constructed mesh (counts set, arrays null) is
likewise undefined behaviour rather than safe (second conjunct), though it
is safe on an empty mesh (third conjunct). -/
theorem init_failure_cleanup_ub :
    (goblin3d_init [false] obj0 1 1 = none) ∧
    (goblin3d_free { obj0 with point_count := 1 } = none) ∧
    (goblin3d_free obj0 = some ()) := by
  refine ⟨?_, ?_, ?_⟩
  · with_unfolding_all decide
  · with_unfolding_all decide
  · with_unfolding_all decide

/-- C1 counterexample: on a mesh whose only vertex is `(1, 0, 0)`, with zero
rotation, z offset `-10`, scale `100` and zero screen offsets, the transform
pass stores `rotated = (1, 0, -10)` but `projected.x = -33`: the code clamps
the pre-offset rotation z (here `0`, clamped to `-3`), whereas the claimed
formula `round(rotated.x / min(rotated.z, -3) * scale) + xOffset` evaluates
to `-10`. -/
theorem precalculate_zclamp_counterexample :
    ((goblin3d_precalculate objX 1 0 1 0 1 0).map (fun o => (o.rotated_points, o.points)) =
      some (some [Slot.val ((1 : ℚ), 0, -10)], some [Slot.val ((-33 : ℚ), 0)])) ∧
    ((-33 : ℚ) ≠ (roundAway ((1 : ℚ) / (min (-10 : ℚ) (-3)) * 100) : ℚ) + 0) := by
  constructor
  · with_unfolding_all decide
  · with_unfolding_all decide

/-- C4 counterexample: the draw callback's parameters are `uint16_t`
(goblin3d.h line 101), so `render` passes the projected coordinates
converted to integers.  On a mesh whose first projected X coordinate is
`1/2`, the single draw call receives `(0, 0, 0, 0)`: its first argument is
not the projected coordinate `1/2` of the edge's first vertex, contradicting
the claim that each call's arguments are the projected coordinates. -/
theorem render_args_counterexample :
    (goblin3d_render objY = some [(0, 0, 0, 0)]) ∧
    (projAt objY 0 = some ((1 : ℚ)/2, 0)) ∧ ((0 : ℚ) ≠ (1 : ℚ)/2) := by
  refine ⟨?_, ?_, ?_⟩
  · with_unfolding_all decide
  · with_unfolding_all decide
  · with_unfolding_all decide

/-- C6 counterexample: `goblin3d_add_point` returns a boolean success flag,
not the new vertex's index.  Two successful appends onto meshes with vertex
counts 0 and 1 both return the same value `true`, so the returned value
cannot equal the vertex count before the call in both cases. -/
theorem add_point_returns_bool_counterexample :
    ((goblin3d_add_point [] obj0 5 5 5).map (fun r => r.2.2) = some true) ∧
    ((goblin3d_add_point [] objA2 5 5 5).map (fun r => r.2.2) = some true) ∧
    obj0.point_count = 0 ∧ objA2.point_count = 1 := by
  refine ⟨?_, ?_, ?_, ?_⟩
  · with_unfolding_all decide
  · with_unfolding_all decide
  · rfl
  · rfl

/-- The scan of `goblin3d_edge_exists` over an array of written rows returns
the boolean "some row matches `(v1, v2)` in either order". -/
theorem edgeSeek_map_val (v1 v2 : ℕ) (E : List (ℕ × ℕ)) :
    edgeSeek v1 v2 E.length (E.map Slot.val) =
      some (E.any fun e => (e.1 == v1 && e.2 == v2) || (e.1 == v2 && e.2 == v1)) := by
  induction E with
  | nil => rfl
  | cons e E ih =>
    obtain ⟨a, b⟩ := e
    by_cases hm : ((a == v1 && b == v2) || (a == v2 && b == v1)) = true
    · simp [edgeSeek, hm]
    · rw [Bool.not_eq_true] at hm
      simp [edgeSeek, hm, ih]

/-- `goblin3d_edge_exists` on a mesh whose edge array holds exactly the
written rows `E`. -/
theorem edge_exists_eq_any (obj : goblin3d_obj_t) (E : List (ℕ × ℕ)) (v1 v2 : ℕ)
    (h1 : obj.edges = some (E.map Slot.val)) (h2 : obj.edge_count = E.length) :
    goblin3d_edge_exists obj v1 v2 =
      some (E.any fun e => (e.1 == v1 && e.2 == v2) || (e.1 == v2 && e.2 == v1)) := by
  unfold goblin3d_edge_exists
  rw [h1, h2]
  exact edgeSeek_map_val v1 v2 E

/-- The row-match boolean is the decision of unordered-pair membership. -/
theorem any_unord_iff (E : List (ℕ × ℕ)) (v1 v2 : ℕ) :
    (E.any fun e => (e.1 == v1 && e.2 == v2) || (e.1 == v2 && e.2 == v1)) = true ↔
      ∃ e ∈ E, e = (v1, v2) ∨ e = (v2, v1) := by
  simp [List.any_eq_true, Prod.ext_iff]

/-- The row-match boolean is symmetric in the two queried indices. -/
theorem any_unord_symm (E : List (ℕ × ℕ)) (v1 v2 : ℕ) :
    (E.any fun e => (e.1 == v1 && e.2 == v2) || (e.1 == v2 && e.2 == v1)) =
      (E.any fun e => (e.1 == v2 && e.2 == v1) || (e.1 == v1 && e.2 == v2)) := by
  induction E with
  | nil => rfl
  | cons e E ih => simp [List.any_cons, ih, Bool.or_comm]

/-- C8: on a mesh whose edge array holds exactly the written rows `E`,
`goblin3d_edge_exists(obj, v1, v2)` reports true exactly when some stored
edge equals `{v1, v2}` as an unordered pair, and is symmetric in `v1` and
`v2`. -/
theorem edge_exists_unordered_iff (obj : goblin3d_obj_t) (E : List (ℕ × ℕ)) (v1 v2 : ℕ)
    (h1 : obj.edges = some (E.map Slot.val)) (h2 : obj.edge_count = E.length) :
    (goblin3d_edge_exists obj v1 v2 = some true ↔ ∃ e ∈ E, e = (v1, v2) ∨ e = (v2, v1)) ∧
    goblin3d_edge_exists obj v1 v2 = goblin3d_edge_exists obj v2 v1 := by
  rw [edge_exists_eq_any obj E v1 v2 h1 h2, edge_exists_eq_any obj E v2 v1 h1 h2]
  constructor
  · rw [Option.some_inj]
    exact any_unord_iff E v1 v2
  · rw [Option.some_inj]
    exact any_unord_symm E v1 v2

/-- C8 witness: the theorem instantiated on a concrete one-edge mesh. -/
theorem edge_exists_unordered_iff_witness :
    (goblin3d_edge_exists objR 0 1 = some true ↔
      ∃ e ∈ [(0, 1)], e = (0, 1) ∨ e = (1, 0)) ∧
    goblin3d_edge_exists objR 0 1 = goblin3d_edge_exists objR 1 0 :=
  edge_exists_unordered_iff objR [(0, 1)] 0 1 rfl rfl

/-- A reallocated array has exactly the requested number of slots. -/
theorem length_reallocArr {α : Type} (arr : Option (List (Slot α))) (n : ℕ) :
    (reallocArr arr n).length = n := by
  cases arr with
  | none => simp [reallocArr]
  | some l => simp [reallocArr]; omega

/-- Setting the freshly added last slot of a grown array. -/
theorem set_last_append {α : Type} (l : List α) (a b : α) :
    (l ++ [a]).set l.length b = l ++ [b] := by
  induction l with
  | nil => rfl
  | cons c l ih => simp [List.set, ih]

/-- `set_last_append` with the index given as the length of the unmapped
list. -/
theorem set_last_append_map {α : Type} (O : List α) (a b : Slot α) :
    (O.map Slot.val ++ [a]).set O.length b = O.map Slot.val ++ [b] := by
  have h : O.length = (O.map Slot.val).length := by simp
  rw [h, set_last_append]

/-- Reading the freshly added last slot of a grown array. -/
theorem get_last_map {α : Type} (O : List α) (a : Slot α) :
    (O.map Slot.val ++ [a]).get? O.length = some a := by
  have h : O.length = (O.map Slot.val).length := by simp
  rw [h, List.get?_eq_getElem?, List.getElem?_concat_length]

/-- The `uint32_t` decrement of a non-wrapping incremented counter. -/
theorem dec32_succ (n : ℕ) (hn : n + 1 < U32) : dec32 (n + 1) = n := by
  have hU : U32 = 4294967296 := rfl
  unfold dec32
  rw [hU] at hn ⊢
  omega

/-- Growing the original-vertex array of a mesh holding `O` adds one
indeterminate slot after the existing rows. -/
theorem origIs_realloc (obj : goblin3d_obj_t) (O : List Vec3) (hO : origIs obj O) :
    reallocArr obj.orig_points (O.length + 1) = O.map Slot.val ++ [Slot.uninit] := by
  rcases hO.2 with h | ⟨h, rfl⟩
  · rw [h]
    simp only [reallocArr]
    rw [List.take_of_length_le (by simp)]
    simp
  · rw [h]
    rfl

/-- An in-bounds `setSlot` succeeds. -/
theorem setSlot_lt {α : Type} (l : List (Slot α)) (i : ℕ) (s : Slot α) (hi : i < l.length) :
    setSlot l i s = some (l.set i s) := by
  simp [setSlot, hi]

/-- Writing through the freshly allocated last row stores the value. -/
theorem writeSlot_last_map {α : Type} (O : List α) (p : α) :
    writeSlot (O.map Slot.val ++ [Slot.fresh]) O.length p =
      some (O.map Slot.val ++ [Slot.val p]) := by
  unfold writeSlot
  rw [get_last_map, set_last_append_map]

/-- Writing through a failed (null) last row is undefined behaviour. -/
theorem writeSlot_last_null {α : Type} (O : List α) (p : α) :
    writeSlot (O.map Slot.val ++ [Slot.null]) O.length p = none := by
  unfold writeSlot
  rw [get_last_map]

/-- C6 (amended): a successful `goblin3d_add_point` increases the vertex
count by exactly 1 and stores `(x, y, z)` as the original position of the
new vertex, whose index equals the vertex count before the call; the call
returns the boolean success flag `true` (the C function returns `bool`, not
the new index). -/
theorem add_point_success_spec (h h' : Heap) (obj obj' : goblin3d_obj_t) (O : List Vec3)
    (x y z : ℚ) (hO : origIs obj O) (hlt : O.length + 1 < U32)
    (hcall : goblin3d_add_point h obj x y z = some (h', obj', true)) :
    obj'.point_count = obj.point_count + 1 ∧ origIs obj' (O ++ [(x, y, z)]) := by
  have hpc : (obj.point_count + 1) % U32 = O.length + 1 := by
    rw [hO.1]; exact Nat.mod_eq_of_lt hlt
  simp only [goblin3d_add_point] at hcall
  rw [hpc, origIs_realloc obj O hO, dec32_succ O.length hlt] at hcall
  by_cases ha1 : (alloc h).1 = false
  · simp [ha1] at hcall
  rw [if_neg ha1] at hcall
  by_cases ha2 : (alloc (alloc h).2).1 = false
  · simp [ha2] at hcall
  rw [if_neg ha2] at hcall
  by_cases ha3 : (alloc (alloc (alloc h).2).2).1 = false
  · simp [ha3] at hcall
  rw [if_neg ha3] at hcall
  rw [setSlot_lt _ _ _ (by simp),
      setSlot_lt _ _ _ (by rw [length_reallocArr]; omega),
      setSlot_lt _ _ _ (by rw [length_reallocArr]; omega)] at hcall
  by_cases hb1 : (alloc (alloc (alloc (alloc h).2).2).2).1 = true
  · simp only [hb1, if_true, set_last_append_map, writeSlot_last_map] at hcall
    rw [Option.some_inj] at hcall
    obtain ⟨-, hcall2⟩ := Prod.ext_iff.mp hcall
    obtain ⟨hobj, -⟩ := Prod.ext_iff.mp hcall2
    subst hobj
    refine ⟨by simp [hO.1], by simp [origIs], Or.inl (by simp)⟩
  · rw [Bool.not_eq_true] at hb1
    simp [hb1, set_last_append_map, writeSlot_last_null] at hcall

/-- C6 witness: the theorem instantiated on an append to the empty mesh. -/
theorem add_point_success_spec_witness :
    origIs obj0 [] ∧ ([] : List Vec3).length + 1 < U32 ∧
    goblin3d_add_point [] obj0 1 2 3 = some ([], objP1, true) ∧
    (objP1.point_count = obj0.point_count + 1 ∧ origIs objP1 ([] ++ [(1, 2, 3)])) :=
  ⟨⟨rfl, Or.inr ⟨rfl, rfl⟩⟩, by decide, by with_unfolding_all decide,
   add_point_success_spec [] [] obj0 objP1 [] 1 2 3 ⟨rfl, Or.inr ⟨rfl, rfl⟩⟩ (by decide)
     (by with_unfolding_all decide)⟩

/-- `goblin3d_edge_exists` on a mesh whose edge storage is `E` (with an
empty mesh allowed to hold a null array). -/
theorem edge_exists_eq_any2 (obj : goblin3d_obj_t) (E : List (ℕ × ℕ)) (v1 v2 : ℕ)
    (hE : edgesAre obj E) :
    goblin3d_edge_exists obj v1 v2 =
      some (E.any fun e => (e.1 == v1 && e.2 == v2) || (e.1 == v2 && e.2 == v1)) := by
  rcases hE.2 with h | ⟨h, rfl⟩
  · exact edge_exists_eq_any obj E v1 v2 h hE.1
  · unfold goblin3d_edge_exists
    rw [h, hE.1]
    rfl

/-- `goblin3d_add_edge` on an already-present unordered pair returns success
at once, leaving mesh and allocation oracle untouched. -/
theorem add_edge_found (h : Heap) (obj : goblin3d_obj_t) (E : List (ℕ × ℕ)) (v1 v2 : ℕ)
    (hE : edgesAre obj E) (hmem : ∃ e ∈ E, e = (v1, v2) ∨ e = (v2, v1)) :
    goblin3d_add_edge h obj v1 v2 = some (h, obj, true) := by
  have hex : goblin3d_edge_exists obj v1 v2 = some true := by
    rw [edge_exists_eq_any2 obj E v1 v2 hE, Option.some_inj]
    exact (any_unord_iff E v1 v2).mpr hmem
  unfold goblin3d_add_edge
  rw [hex]

/-- `goblin3d_add_edge` on a mesh with a null edge array but nonzero edge
count (the state left by a failed edge-array `realloc`) is undefined
behaviour: `goblin3d_edge_exists` walks the null array. -/
theorem add_edge_null (h : Heap) (obj : goblin3d_obj_t) (v1 v2 : ℕ)
    (he : obj.edges = none) (hc : obj.edge_count ≠ 0) :
    goblin3d_add_edge h obj v1 v2 = none := by
  unfold goblin3d_add_edge goblin3d_edge_exists
  rw [he]
  simp [hc]

/-- Growing an array holding exactly the rows `l` by one adds one
indeterminate slot. -/
theorem realloc_grow {α : Type} (arr : Option (List (Slot α))) (l : List α)
    (harr : arr = some (l.map Slot.val) ∨ (arr = none ∧ l = [])) :
    reallocArr arr (l.length + 1) = l.map Slot.val ++ [Slot.uninit] := by
  rcases harr with h | ⟨h, rfl⟩
  · rw [h]
    simp only [reallocArr]
    rw [List.take_of_length_le (by simp)]
    simp
  · rw [h]
    rfl

/-- Characterization of a completed `goblin3d_add_edge` appending an absent
pair: the count is incremented either way; on success the pair is stored
after the existing rows, on a failed `realloc` the edge array is null. -/
theorem add_edge_append (h : Heap) (obj : goblin3d_obj_t) (E : List (ℕ × ℕ)) (v1 v2 : ℕ)
    (hE : edgesAre obj E) (hlt : E.length + 1 < U32)
    (habs : ¬ ∃ e ∈ E, e = (v1, v2) ∨ e = (v2, v1))
    (h' : Heap) (obj' : goblin3d_obj_t) (r : Bool)
    (hcall : goblin3d_add_edge h obj v1 v2 = some (h', obj', r)) :
    obj'.edge_count = E.length + 1 ∧
      ((r = true ∧ obj'.edges = some ((E ++ [(v1, v2)]).map Slot.val)) ∨
       (r = false ∧ obj'.edges = none)) := by
  have hex : goblin3d_edge_exists obj v1 v2 = some false := by
    rw [edge_exists_eq_any2 obj E v1 v2 hE, Option.some_inj, ← Bool.not_eq_true]
    intro hany
    exact habs ((any_unord_iff E v1 v2).mp hany)
  have hec : (obj.edge_count + 1) % U32 = E.length + 1 := by
    rw [hE.1]; exact Nat.mod_eq_of_lt hlt
  have hre : reallocArr obj.edges (E.length + 1) = E.map Slot.val ++ [Slot.uninit] :=
    realloc_grow obj.edges E hE.2
  simp only [goblin3d_add_edge] at hcall
  rw [hex] at hcall
  simp only [] at hcall
  rw [hec, hre, dec32_succ E.length hlt] at hcall
  by_cases ha : (alloc h).1 = false
  · simp only [ha, if_true] at hcall
    rw [Option.some_inj] at hcall
    obtain ⟨-, hcall2⟩ := Prod.ext_iff.mp hcall
    obtain ⟨hobj, hr⟩ := Prod.ext_iff.mp hcall2
    subst hobj
    exact ⟨by simp [hec], Or.inr ⟨hr.symm, rfl⟩⟩
  · rw [if_neg ha] at hcall
    rw [setSlot_lt _ _ _ (by simp)] at hcall
    by_cases hb : (alloc (alloc h).2).1 = true
    · simp only [hb, if_true, set_last_append_map, writeSlot_last_map] at hcall
      rw [Option.some_inj] at hcall
      obtain ⟨-, hcall2⟩ := Prod.ext_iff.mp hcall
      obtain ⟨hobj, hr⟩ := Prod.ext_iff.mp hcall2
      subst hobj
      exact ⟨rfl, Or.inl ⟨hr.symm, by simp⟩⟩
    · rw [Bool.not_eq_true] at hb
      simp [hb, set_last_append_map, writeSlot_last_null] at hcall

/-- Any completed `goblin3d_add_point` leaves the edge array and the edge
count untouched. -/
theorem add_point_preserves_edges (h h' : Heap) (obj obj' : goblin3d_obj_t)
    (x y z : ℚ) (r : Bool)
    (hcall : goblin3d_add_point h obj x y z = some (h', obj', r)) :
    obj'.edges = obj.edges ∧ obj'.edge_count = obj.edge_count := by
  simp only [goblin3d_add_point] at hcall
  repeat' split at hcall
  all_goals
    first
    | exact Option.noConfusion hcall
    | (rw [Option.some_inj] at hcall
       obtain ⟨-, hcall2⟩ := Prod.ext_iff.mp hcall
       obtain ⟨hobj, -⟩ := Prod.ext_iff.mp hcall2
       subst hobj
       exact ⟨rfl, rfl⟩)

/-- Extracting the written rows of a fully written array. -/
theorem filterMap_slotVal_map (E : List (ℕ × ℕ)) :
    (E.map Slot.val).filterMap slotVal = E := by
  induction E with
  | nil => rfl
  | cons e E ih => simp [List.filterMap_cons, slotVal, ih]

/-- The builder's edge invariant is preserved by every completed
`goblin3d_add_edge` call, whatever the allocation outcomes. -/
theorem add_edge_preserves_inv (h h' : Heap) (obj obj' : goblin3d_obj_t)
    (v1 v2 : ℕ) (r : Bool)
    (hcall : goblin3d_add_edge h obj v1 v2 = some (h', obj', r))
    (hinv : EdgesInv obj) : EdgesInv obj' := by
  rcases hinv with hnone | ⟨E, hedges, hcount, hbound, hpw⟩
  · by_cases hc : obj.edge_count = 0
    · have hE : edgesAre obj [] := ⟨hc, Or.inr ⟨hnone, rfl⟩⟩
      have habs : ¬ ∃ e ∈ ([] : List (ℕ × ℕ)), e = (v1, v2) ∨ e = (v2, v1) := by simp
      obtain ⟨hcnt, hcase⟩ := add_edge_append h obj [] v1 v2 hE (by decide) habs h' obj' r hcall
      rcases hcase with ⟨-, hed⟩ | ⟨-, hed⟩
      · right
        exact ⟨[(v1, v2)], by simpa using hed, by simpa using hcnt, by simp [U32], by simp⟩
      · left; exact hed
    · rw [add_edge_null h obj v1 v2 hnone hc] at hcall
      exact Option.noConfusion hcall
  · have hE : edgesAre obj E := ⟨hcount, Or.inl hedges⟩
    by_cases hmem : ∃ e ∈ E, e = (v1, v2) ∨ e = (v2, v1)
    · rw [add_edge_found h obj E v1 v2 hE hmem, Option.some_inj] at hcall
      obtain ⟨-, hcall2⟩ := Prod.ext_iff.mp hcall
      obtain ⟨hobj, -⟩ := Prod.ext_iff.mp hcall2
      subst hobj
      right; exact ⟨E, hedges, hcount, hbound, hpw⟩
    · by_cases hlt : E.length + 1 < U32
      · obtain ⟨hcnt, hcase⟩ := add_edge_append h obj E v1 v2 hE hlt hmem h' obj' r hcall
        rcases hcase with ⟨-, hed⟩ | ⟨-, hed⟩
        · right
          refine ⟨E ++ [(v1, v2)], hed, by simpa using hcnt, by simpa using hlt, ?_⟩
          rw [List.pairwise_append]
          refine ⟨hpw, by simp, ?_⟩
          intro a ha b hb
          simp only [List.mem_singleton] at hb
          subst hb
          intro hsame
          apply hmem
          rcases hsame with hsame | hsame
          · exact ⟨a, ha, Or.inl hsame.symm⟩
          · refine ⟨a, ha, Or.inr ?_⟩
            obtain ⟨h1, h2⟩ := Prod.ext_iff.mp hsame
            simp at h1 h2
            exact Prod.ext_iff.mpr ⟨h2.symm, h1.symm⟩
        · left; exact hed
      · have hwrap : (obj.edge_count + 1) % U32 = 0 := by
          rw [hcount]
          have : E.length + 1 = U32 := by omega
          rw [this]
          exact Nat.mod_self U32
        have hex : goblin3d_edge_exists obj v1 v2 = some false := by
          rw [edge_exists_eq_any2 obj E v1 v2 hE, Option.some_inj, ← Bool.not_eq_true]
          intro hany
          exact hmem ((any_unord_iff E v1 v2).mp hany)
        simp only [goblin3d_add_edge] at hcall
        rw [hex] at hcall
        simp only [] at hcall
        rw [hwrap] at hcall
        by_cases ha : (alloc h).1 = false
        · simp only [ha, if_true] at hcall
          rw [Option.some_inj] at hcall
          obtain ⟨-, hcall2⟩ := Prod.ext_iff.mp hcall
          obtain ⟨hobj, -⟩ := Prod.ext_iff.mp hcall2
          subst hobj
          left
          rfl
        · rw [if_neg ha] at hcall
          have hz : reallocArr obj.edges 0 = [] := by
            rw [hedges]
            simp [reallocArr]
          rw [hz] at hcall
          have hs : setSlot ([] : List (Slot (ℕ × ℕ))) (dec32 0)
              (if (alloc (alloc h).2).1 = true then Slot.fresh else Slot.null) = none := by
            simp [setSlot]
          rw [hs] at hcall
          exact Option.noConfusion hcall

/-- Every mesh reachable through the builder satisfies the edge
invariant. -/
theorem built_inv (obj : goblin3d_obj_t) (hb : Built obj) : EdgesInv obj := by
  induction hb with
  | empty o => left; rfl
  | point h h1 o o1 x y z r hb hcall ih =>
    obtain ⟨he, hc⟩ := add_point_preserves_edges h h1 o o1 x y z r hcall
    rcases ih with hnone | ⟨E, h1e, h2e, h3e, h4e⟩
    · left; rw [he, hnone]
    · right; exact ⟨E, by rw [he, h1e], by rw [hc, h2e], h3e, h4e⟩
  | edge h h1 o o1 v1 v2 r hb hcall ih =>
    exact add_edge_preserves_inv h h1 o o1 v1 v2 r hcall ih

/-- C5: (1) `goblin3d_add_edge` on an already-stored unordered pair returns
success without modifying the edge storage (or anything else); (2) two
successive completed calls with the same pair leave the edge count after the
second call equal to the count after the first; (3) no mesh built through
the builder stores two edges denoting the same unordered vertex pair. -/
theorem add_edge_dedup_spec :
    (∀ (h : Heap) (obj : goblin3d_obj_t) (E : List (ℕ × ℕ)) (v1 v2 : ℕ),
        edgesAre obj E → (∃ e ∈ E, e = (v1, v2) ∨ e = (v2, v1)) →
        goblin3d_add_edge h obj v1 v2 = some (h, obj, true)) ∧
    (∀ (h : Heap) (obj : goblin3d_obj_t) (E : List (ℕ × ℕ)) (v1 v2 : ℕ)
        (h1 : Heap) (obj1 : goblin3d_obj_t) (r1 : Bool)
        (h2 : Heap) (obj2 : goblin3d_obj_t) (r2 : Bool),
        edgesAre obj E → E.length + 1 < U32 →
        goblin3d_add_edge h obj v1 v2 = some (h1, obj1, r1) →
        goblin3d_add_edge h1 obj1 v1 v2 = some (h2, obj2, r2) →
        obj2.edge_count = obj1.edge_count) ∧
    (∀ obj : goblin3d_obj_t, Built obj →
        (storedEdges obj).Pairwise fun e f => ¬ sameUnord e f) := by
  refine ⟨?_, ?_, ?_⟩
  · exact fun h obj E v1 v2 hE hmem => add_edge_found h obj E v1 v2 hE hmem
  · intro h obj E v1 v2 h1 obj1 r1 h2 obj2 r2 hE hlt hcall1 hcall2
    by_cases hmem : ∃ e ∈ E, e = (v1, v2) ∨ e = (v2, v1)
    · rw [add_edge_found h obj E v1 v2 hE hmem, Option.some_inj] at hcall1
      injection hcall1 with hh hcall1b
      injection hcall1b with hobj hr
      subst hobj
      rw [add_edge_found h1 obj E v1 v2 hE hmem, Option.some_inj] at hcall2
      injection hcall2 with hh2 hcall2b
      injection hcall2b with hobj2 hr2
      subst hobj2
      rfl
    · obtain ⟨hcnt1, hcase⟩ := add_edge_append h obj E v1 v2 hE hlt hmem h1 obj1 r1 hcall1
      rcases hcase with ⟨-, hed⟩ | ⟨-, hed⟩
      · have hE1 : edgesAre obj1 (E ++ [(v1, v2)]) := ⟨by simpa using hcnt1, Or.inl hed⟩
        have hmem1 : ∃ e ∈ E ++ [(v1, v2)], e = (v1, v2) ∨ e = (v2, v1) :=
          ⟨(v1, v2), by simp⟩
        rw [add_edge_found h1 obj1 (E ++ [(v1, v2)]) v1 v2 hE1 hmem1,
          Option.some_inj] at hcall2
        injection hcall2 with hh2 hcall2b
        injection hcall2b with hobj2 hr2
        subst hobj2
        rfl
      · rw [add_edge_null h1 obj1 v1 v2 hed (by omega)] at hcall2
        exact Option.noConfusion hcall2
  · intro obj hb
    rcases built_inv obj hb with hnone | ⟨E, h1e, h2e, h3e, h4e⟩
    · simp only [storedEdges, hnone]
      exact List.Pairwise.nil
    · simp only [storedEdges, h1e, filterMap_slotVal_map]
      exact h4e

/-- C5 witness: the three parts instantiated on concrete meshes - a stored
pair is re-added as a no-op, a pair is added twice onto an empty mesh, and
the empty mesh is a builder product. -/
theorem add_edge_dedup_spec_witness :
    (goblin3d_add_edge [] objR 0 1 = some ([], objR, true)) ∧
    (goblin3d_add_edge [] objE 0 1 = some ([], objE1, true) ∧
      goblin3d_add_edge [] objE1 0 1 = some ([], objE1, true) ∧
      objE1.edge_count = objE1.edge_count) ∧
    (storedEdges obj0).Pairwise (fun e f => ¬ sameUnord e f) :=
  ⟨add_edge_dedup_spec.1 [] objR [(0, 1)] 0 1 ⟨rfl, Or.inl rfl⟩ ⟨(0, 1), by simp⟩,
   ⟨by with_unfolding_all decide, by with_unfolding_all decide,
    add_edge_dedup_spec.2.1 [] objE [] 0 1 [] objE1 true [] objE1 true
      ⟨rfl, Or.inl rfl⟩ (by simp [U32]) (by with_unfolding_all decide)
      (by with_unfolding_all decide)⟩,
   add_edge_dedup_spec.2.2 obj0 (Built.empty obj0)⟩

/-- A projected coordinate that is an exact `uint16_t` value survives the
callback-argument conversion unchanged. -/
theorem toU16_of_isU16 (q : ℚ) (hq : isU16 q) :
    toU16 q = some (qToN q) ∧ (qToN q : ℚ) = q := by
  obtain ⟨n, hn, rfl⟩ := hq
  have ht : ratTrunc (n : ℚ) = (n : ℤ) := by
    unfold ratTrunc
    rw [if_neg (not_lt.mpr (Nat.cast_nonneg n)), Int.floor_natCast]
  constructor
  · unfold toU16
    rw [ht]
    rw [if_pos ⟨Int.ofNat_nonneg n, by exact_mod_cast hn⟩]
    simp [qToN, ht]
  · simp [qToN, ht]

/-- Reading a slot of a fully written array is the plain list lookup. -/
theorem readSlot_map_val {α : Type} (P : List α) (i : ℕ) :
    readSlot (P.map Slot.val) i = P.get? i := by
  unfold readSlot
  rw [List.get?_eq_getElem?, List.getElem?_map, List.get?_eq_getElem?]
  cases h : P[i]? with
  | none => rfl
  | some p => rfl

/-- An in-bounds `get?` equals `getD`. -/
theorem get?_eq_getD {α : Type} (P : List α) (i : ℕ) (d : α) (h : i < P.length) :
    P.get? i = some (P.getD i d) := by
  induction P generalizing i with
  | nil => simp at h
  | cons p P ih =>
    cases i with
    | zero => simp [List.getD]
    | succ j =>
      simp only [List.get?, List.getD_cons_succ]
      exact ih j (by simpa using h)

/-- An in-bounds `getD` is an element of the list. -/
theorem getD_mem {α : Type} (P : List α) (i : ℕ) (d : α) (h : i < P.length) :
    P.getD i d ∈ P := by
  have hg := get?_eq_getD P i d h
  exact List.get?_mem hg

/-- The render loop over fully written edges and in-range integral projected
coordinates produces exactly one draw call per edge, in order. -/
theorem renderSeek_map (obj : goblin3d_obj_t) (P : List Vec2)
    (hpts : obj.points = some (P.map Slot.val))
    (hP16 : ∀ p ∈ P, isU16 p.1 ∧ isU16 p.2) (E : List (ℕ × ℕ))
    (hEb : ∀ e ∈ E, e.1 < P.length ∧ e.2 < P.length) :
    renderSeek obj E.length (E.map Slot.val) =
      some (E.map fun e =>
        (qToN (P.getD e.1 (0, 0)).1, qToN (P.getD e.1 (0, 0)).2,
         qToN (P.getD e.2 (0, 0)).1, qToN (P.getD e.2 (0, 0)).2)) := by
  induction E with
  | nil => rfl
  | cons e E ih =>
    obtain ⟨st, en⟩ := e
    obtain ⟨hst, hen⟩ := hEb (st, en) (by simp)
    have hrd1 : readPt obj.points st = some (P.getD st (0, 0)) := by
      simp only [readPt, hpts]
      rw [readSlot_map_val, get?_eq_getD P st (0, 0) hst]
    have hrd2 : readPt obj.points en = some (P.getD en (0, 0)) := by
      simp only [readPt, hpts]
      rw [readSlot_map_val, get?_eq_getD P en (0, 0) hen]
    obtain ⟨h116, h216⟩ := hP16 _ (getD_mem P st (0, 0) hst)
    obtain ⟨h316, h416⟩ := hP16 _ (getD_mem P en (0, 0) hen)
    simp only [List.map_cons, List.length_cons, renderSeek, hrd1, hrd2,
      (toU16_of_isU16 _ h116).1, (toU16_of_isU16 _ h216).1,
      (toU16_of_isU16 _ h316).1, (toU16_of_isU16 _ h416).1,
      ih fun e he => hEb e (by simp [he])]

/-- C4 (amended): on a mesh whose edge array holds exactly the pairs `E`,
each referencing a valid projected row, and whose projected coordinates are
integers representable as `uint16_t`, `goblin3d_render` invokes the draw
callback exactly `edge_count` times, once per stored edge in edge-insertion
order, and each call's arguments equal (as the callback's `uint16_t` values)
the current projected coordinates of the edge's two vertices. -/
theorem render_draw_calls (obj : goblin3d_obj_t) (E : List (ℕ × ℕ)) (P : List Vec2)
    (h1 : obj.edges = some (E.map Slot.val)) (h2 : obj.edge_count = E.length)
    (hpts : obj.points = some (P.map Slot.val))
    (hEb : ∀ e ∈ E, e.1 < P.length ∧ e.2 < P.length)
    (hP16 : ∀ p ∈ P, isU16 p.1 ∧ isU16 p.2) :
    goblin3d_render obj =
      some (E.map fun e =>
        (qToN (P.getD e.1 (0, 0)).1, qToN (P.getD e.1 (0, 0)).2,
         qToN (P.getD e.2 (0, 0)).1, qToN (P.getD e.2 (0, 0)).2)) ∧
    (E.map fun e =>
        (qToN (P.getD e.1 (0, 0)).1, qToN (P.getD e.1 (0, 0)).2,
         qToN (P.getD e.2 (0, 0)).1, qToN (P.getD e.2 (0, 0)).2)).length = obj.edge_count ∧
    ∀ e ∈ E,
      ((qToN (P.getD e.1 (0, 0)).1 : ℚ) = (P.getD e.1 (0, 0)).1 ∧
       (qToN (P.getD e.1 (0, 0)).2 : ℚ) = (P.getD e.1 (0, 0)).2 ∧
       (qToN (P.getD e.2 (0, 0)).1 : ℚ) = (P.getD e.2 (0, 0)).1 ∧
       (qToN (P.getD e.2 (0, 0)).2 : ℚ) = (P.getD e.2 (0, 0)).2) := by
  refine ⟨?_, by simp [h2], ?_⟩
  · unfold goblin3d_render
    rw [h1, h2]
    exact renderSeek_map obj P hpts hP16 E hEb
  · intro e he
    obtain ⟨hst, hen⟩ := hEb e he
    obtain ⟨h116, h216⟩ := hP16 _ (getD_mem P e.1 (0, 0) hst)
    obtain ⟨h316, h416⟩ := hP16 _ (getD_mem P e.2 (0, 0) hen)
    exact ⟨(toU16_of_isU16 _ h116).2, (toU16_of_isU16 _ h216).2,
      (toU16_of_isU16 _ h316).2, (toU16_of_isU16 _ h416).2⟩

/-- C4 witness: the theorem instantiated on a concrete one-edge mesh with
projected coordinates `(160, 120)` and `(10, 20)`. -/
theorem render_draw_calls_witness :
    goblin3d_render objR = some [(160, 120, 10, 20)] ∧ objR.edge_count = 1 := by
  obtain ⟨ha, hb, -⟩ :=
    render_draw_calls objR [(0, 1)] [((160 : ℚ), 120), (10, 20)] rfl rfl rfl
      (by
        intro e he
        simp only [List.mem_singleton] at he
        subst he
        exact ⟨by norm_num, by norm_num⟩)
      (by
        intro p hp
        simp only [List.mem_cons, List.mem_singleton] at hp
        rcases hp with rfl | rfl | hp
        · exact ⟨⟨160, by norm_num, by norm_num⟩, ⟨120, by norm_num, by norm_num⟩⟩
        · exact ⟨⟨10, by norm_num, by norm_num⟩, ⟨20, by norm_num, by norm_num⟩⟩
        · simp at hp)
  constructor
  · rw [ha]
    with_unfolding_all decide
  · rfl

/-- The transform loop over fully written original rows and writable
rotated/projected rows completes, and every stored projected row is computed
from the corresponding stored rotated row by the perspective divide with the
clamp taken on the rotated z before the z offset was added. -/
theorem precalcSeek_relation (zOff xOff yOff scale cx sx cy sy cz sz : ℚ) :
    ∀ (O : List Vec3) (lr : List (Slot Vec3)) (lp : List (Slot Vec2)),
    lr.length = O.length → lp.length = O.length →
    (∀ s ∈ lr, slotWritable s = true) → (∀ s ∈ lp, slotWritable s = true) →
    ∃ rs ps,
      precalcSeek zOff xOff yOff scale cx sx cy sy cz sz O.length (O.map Slot.val) lr lp =
        some (rs, ps) ∧
      ∀ i rx ry rz, readSlot rs i = some (rx, ry, rz) →
        readSlot ps i =
          some ((roundAway (rx / (if rz - zOff < -3 then rz - zOff else -3) * scale) : ℚ) + xOff,
                (roundAway (ry / (if rz - zOff < -3 then rz - zOff else -3) * scale) : ℚ) + yOff)
  | [], [], [], _, _, _, _ => by
    refine ⟨[], [], rfl, ?_⟩
    intro i rx ry rz hread
    simp [readSlot] at hread
  | v :: O, r :: lr, p :: lp, hlr, hlp, hwr, hwp => by
    obtain ⟨x0, y0, z0⟩ := v
    obtain ⟨rs', ps', heq', hrel'⟩ :=
      precalcSeek_relation zOff xOff yOff scale cx sx cy sy cz sz O lr lp
        (by simpa using hlr) (by simpa using hlp)
        (fun s hs => hwr s (by simp [hs])) (fun s hs => hwp s (by simp [hs]))
    have hwr0 : slotWritable r = true := hwr r (by simp)
    have hwp0 : slotWritable p = true := hwp p (by simp)
    simp only [List.map_cons, List.length_cons, precalcSeek, hwr0, hwp0,
      Bool.and_self, eq_self_iff_true, if_true, heq']
    refine ⟨_, _, rfl, ?_⟩
    intro i rx ry rz hread
    cases i with
    | zero =>
      simp only [readSlot, List.get?] at hread ⊢
      injection hread with hv
      injection hv with h1 hv2
      injection hv2 with h2 h3
      subst h1
      subst h2
      subst h3
      simp only [add_sub_cancel_right]
    | succ j =>
      simp only [readSlot, List.get?] at hread ⊢
      exact hrel' j rx ry rz hread
  | v :: O, [], lp, hlr, _, _, _ => by simp at hlr
  | v :: O, r :: lr, [], _, hlp, _, _ => by simp at hlp

/-- C1 (amended): the transform pass completes on a well-formed mesh and
stores, for every vertex, `projected = (round(rotated.x / zClamped * scale)
+ xOffset, round(rotated.y / zClamped * scale) + yOffset)` where
`zClamped = min(rotated.z - zOffset, -3)`: the clamp (and the divide) use
the post-rotation Z *before* the mesh's z offset is added, while the stored
`rotated.z` has the offset added. -/
theorem precalculate_projected_formula (obj : goblin3d_obj_t) (cx sx cy sy cz sz : ℚ)
    (O : List Vec3) (lr : List (Slot Vec3)) (lp : List (Slot Vec2))
    (ho : obj.orig_points = some (O.map Slot.val)) (hpc : obj.point_count = O.length)
    (hr : obj.rotated_points = some lr) (hlr : lr.length = O.length)
    (hp : obj.points = some lp) (hlp : lp.length = O.length)
    (hwr : ∀ s ∈ lr, slotWritable s = true) (hwp : ∀ s ∈ lp, slotWritable s = true) :
    ∃ obj', goblin3d_precalculate obj cx sx cy sy cz sz = some obj' ∧
      ∀ i rx ry rz, rotAt obj' i = some (rx, ry, rz) →
        projAt obj' i =
          some ((roundAway (rx / (if rz - obj.z_offset < -3 then rz - obj.z_offset else -3) *
                    obj.scale_size) : ℚ) + obj.x_offset,
                (roundAway (ry / (if rz - obj.z_offset < -3 then rz - obj.z_offset else -3) *
                    obj.scale_size) : ℚ) + obj.y_offset) := by
  obtain ⟨rs, ps, heq, hrel⟩ :=
    precalcSeek_relation obj.z_offset obj.x_offset obj.y_offset obj.scale_size
      cx sx cy sy cz sz O lr lp hlr hlp hwr hwp
  refine ⟨{ obj with rotated_points := some rs, points := some ps }, ?_, ?_⟩
  · simp only [goblin3d_precalculate, ho, hr, hp, hpc, heq]
  · intro i rx ry rz hread
    simp only [rotAt] at hread
    simp only [projAt]
    exact hrel i rx ry rz hread

/-- C1 witness: the theorem instantiated on the specification's projection
test mesh (vertex `(0, 0, -5)`, offsets `(160, 120, 0)`, scale `100`, zero
rotation). -/
theorem precalculate_projected_formula_witness :
    ∃ obj', goblin3d_precalculate objW 1 0 1 0 1 0 = some obj' ∧
      ∀ i rx ry rz, rotAt obj' i = some (rx, ry, rz) →
        projAt obj' i =
          some ((roundAway (rx / (if rz - objW.z_offset < -3 then rz - objW.z_offset else -3) *
                    objW.scale_size) : ℚ) + objW.x_offset,
                (roundAway (ry / (if rz - objW.z_offset < -3 then rz - objW.z_offset else -3) *
                    objW.scale_size) : ℚ) + objW.y_offset) :=
  precalculate_projected_formula objW 1 0 1 0 1 0 [(0, 0, -5)] [Slot.fresh] [Slot.fresh]
    rfl rfl rfl rfl rfl rfl
    (by intro s hs; simp only [List.mem_singleton] at hs; subst hs; rfl)
    (by intro s hs; simp only [List.mem_singleton] at hs; subst hs; rfl)

/-- C10: a completed transform pass changes only the per-vertex rotated and
projected coordinates; the original vertices, the edges, both counts, the
three rotation angles, the three offsets and the scale are unchanged. -/
theorem precalculate_frame_effect (obj obj' : goblin3d_obj_t) (cx sx cy sy cz sz : ℚ)
    (hcall : goblin3d_precalculate obj cx sx cy sy cz sz = some obj') :
    obj'.orig_points = obj.orig_points ∧ obj'.edges = obj.edges ∧
    obj'.point_count = obj.point_count ∧ obj'.edge_count = obj.edge_count ∧
    obj'.x_angle_deg = obj.x_angle_deg ∧ obj'.y_angle_deg = obj.y_angle_deg ∧
    obj'.z_angle_deg = obj.z_angle_deg ∧ obj'.x_offset = obj.x_offset ∧
    obj'.y_offset = obj.y_offset ∧ obj'.z_offset = obj.z_offset ∧
    obj'.scale_size = obj.scale_size := by
  simp only [goblin3d_precalculate] at hcall
  repeat' split at hcall
  all_goals first
    | exact Option.noConfusion hcall
    | (rw [Option.some_inj] at hcall
       subst hcall
       exact ⟨rfl, rfl, rfl, rfl, rfl, rfl, rfl, rfl, rfl, rfl, rfl⟩)

/-- C10 witness: the theorem instantiated on `objX`, whose transform pass
produces `objX2`. -/
theorem precalculate_frame_effect_witness :
    objX2.orig_points = objX.orig_points ∧ objX2.edges = objX.edges ∧
    objX2.point_count = objX.point_count ∧ objX2.edge_count = objX.edge_count ∧
    objX2.x_angle_deg = objX.x_angle_deg ∧ objX2.y_angle_deg = objX.y_angle_deg ∧
    objX2.z_angle_deg = objX.z_angle_deg ∧ objX2.x_offset = objX.x_offset ∧
    objX2.y_offset = objX.y_offset ∧ objX2.z_offset = objX.z_offset ∧
    objX2.scale_size = objX.scale_size :=
  precalculate_frame_effect objX objX2 1 0 1 0 1 0 (by with_unfolding_all decide)

end Goblin3d
